import Mathlib

/-!
Verification of the agentic AI chat engine of the pipelines control plane:
tool registry with mode policy, session manager, and streaming chat loop.
The Go source is embedded shallowly: maps become association lists, channels
of capacity one become `Option` cells, wall-clock instants become `Nat`
parameters, and `interface\x7b\x7d` JSON values become a `JsonValue` inductive.
-/

set_option maxHeartbeats 1000000
set_option maxRecDepth 4000

namespace Pipelines

/-- Model of a Go `interface\x7b\x7d` holding decoded JSON. -/
inductive JsonValue where
  | null : JsonValue
  | bool (b : Bool) : JsonValue
  | num (n : Int) : JsonValue
  | str (s : String) : JsonValue
  | arr (elems : List JsonValue) : JsonValue
  | obj (fields : List (String × JsonValue)) : JsonValue

/-- The empty JSON object `map[string]interface\x7b\x7d\x7b\x7d`. -/
def JsonValue.emptyObj : JsonValue := .obj []

/-- Go `type ChatMode int` from the tools package. -/
abbrev ChatMode := Int

/-- Constant `ChatModeAsk ChatMode = 1`. -/
def ChatModeAsk : ChatMode := 1

/-- Constant `ChatModeAgent ChatMode = 2`. -/
def ChatModeAgent : ChatMode := 2

/-- Go `type ToolResult struct` with a content string and an is-error flag. -/
structure ToolResult where
  content : String
  isError : Bool
  deriving DecidableEq, Repr

/-- The `Tool` interface: metadata of a registered tool.  Execution against
the platform is abstracted separately (see `ExecFn`). -/
structure Tool where
  name : String
  description : String
  inputSchema : JsonValue
  isReadOnly : Bool

/-- Go `type SecuredTool struct` wrapping an inner `Tool`. -/
structure SecuredTool where
  inner : Tool

/-- Function `NewSecuredTool` wraps a tool with security enforcement. -/
def NewSecuredTool (tool : Tool) : SecuredTool := ⟨tool⟩

def SecuredTool.Name (s : SecuredTool) : String := s.inner.name

def SecuredTool.Description (s : SecuredTool) : String := s.inner.description

def SecuredTool.InputSchema (s : SecuredTool) : JsonValue := s.inner.inputSchema

def SecuredTool.IsReadOnly (s : SecuredTool) : Bool := s.inner.isReadOnly

/-- Method `SecuredTool.NeedsConfirmation`: mutating tools require confirmation in
Agent mode. -/
def SecuredTool.NeedsConfirmation (s : SecuredTool) (mode : ChatMode) : Bool :=
  if s.inner.isReadOnly then false else mode == ChatModeAgent

/-- Method `SecuredTool.IsBlocked`: mutating tools are blocked in Ask mode. -/
def SecuredTool.IsBlocked (s : SecuredTool) (mode : ChatMode) : Bool :=
  if s.inner.isReadOnly then false else mode == ChatModeAsk

/-- Go `type ToolDefinition struct` from the provider package: what the LLM
sees for each tool. -/
structure ToolDefinition where
  name : String
  description : String
  inputSchema : JsonValue

/-- Go `type ToolRegistry struct` holding a map from name to SecuredTool.  The Go
map is embedded as an association list keyed by tool name; `Register`
replaces any prior entry under the same key, preserving map semantics. -/
structure ToolRegistry where
  tools : List (String × SecuredTool)

/-- Function `NewToolRegistry` creates a new empty tool registry. -/
def NewToolRegistry : ToolRegistry := ⟨[]⟩

/-- Method `Register` adds a tool to the registry, wrapping it with `SecuredTool`.
Insertion under an existing key replaces the prior registration. -/
def ToolRegistry.Register (r : ToolRegistry) (tool : Tool) : ToolRegistry :=
  ⟨(tool.name, NewSecuredTool tool) :: r.tools.filter (fun p => !(p.1 == tool.name))⟩

/-- Method `Get` retrieves a secured tool by name. -/
def ToolRegistry.Get (r : ToolRegistry) (name : String) : Option SecuredTool :=
  (r.tools.find? (fun p => p.1 == name)).map (·.2)

/-- Method `ListForMode` returns tool definitions filtered by the chat mode: in Ask
mode only read-only tools are returned, in Agent mode all tools. -/
def ToolRegistry.ListForMode (r : ToolRegistry) (mode : ChatMode) : List ToolDefinition :=
  (r.tools.filter (fun p => !(mode == ChatModeAsk && !p.2.IsReadOnly))).map
    (fun p => ⟨p.2.Name, p.2.Description, p.2.InputSchema⟩)

/-- Method `ListToolNames` returns all registered tool names. -/
def ToolRegistry.ListToolNames (r : ToolRegistry) : List String :=
  r.tools.map (·.1)

/-- Well-formedness of a registry state: keys are distinct, and each entry is
keyed by the name of its tool — both hold for every registry built with
`Register` from `NewToolRegistry`. -/
def ToolRegistry.Wf (r : ToolRegistry) : Prop :=
  (r.tools.map (·.1)).Nodup ∧ ∀ p ∈ r.tools, p.1 = p.2.Name

instance (r : ToolRegistry) : Decidable r.Wf := by
  unfold ToolRegistry.Wf; infer_instance

/-! ### Provider data types (provider package) -/

/-- Go `type ContentBlock struct`: a content block in a message. Zero values
of absent JSON fields are the empty string, `none`, and `false`. -/
structure ContentBlock where
  type : String := ""
  text : String := ""
  id : String := ""
  name : String := ""
  input : Option JsonValue := none
  toolUseID : String := ""
  content : String := ""
  isError : Bool := false

/-- Content of a Go `Message`: either a plain string or a block list
(the `interface\x7b\x7d` field `Content`). -/
inductive MessageContent where
  | text (s : String) : MessageContent
  | blocks (bs : List ContentBlock) : MessageContent

/-- Go `type Message struct` with a role and a content. -/
structure Message where
  role : String
  content : MessageContent

/-- Go `type Delta struct`: an incremental update in the provider stream. -/
structure Delta where
  type : String := ""
  text : String := ""
  partialJSON : String := ""
  stopReason : String := ""

/-- Go `type Usage struct`. -/
structure Usage where
  inputTokens : Int := 0
  outputTokens : Int := 0

/-- Go `type MessageResponse struct`. -/
structure MessageResponse where
  id : String := ""
  role : String := ""
  content : List ContentBlock := []
  stopReason : String := ""
  model : String := ""

/-- Go `type StreamEvent struct`: a typed streaming event from the provider. -/
structure StreamEvent where
  type : String
  contentBlock : Option ContentBlock := none
  delta : Option Delta := none
  message : Option MessageResponse := none
  usage : Option Usage := none

/-! ### Association-list embedding of Go maps -/

/-- Lookup in a Go map embedded as an association list. -/
def mapFind {α : Type} : List (String × α) → String → Option α
  | [], _ => none
  | p :: rest, k => if p.1 = k then some p.2 else mapFind rest k

/-- Go `delete(m, k)` on a map embedded as an association list. -/
def mapErase {α : Type} : List (String × α) → String → List (String × α)
  | [], _ => []
  | p :: rest, k => if p.1 = k then mapErase rest k else p :: mapErase rest k

/-- Assignment `m[k] = v` in a Go map embedded as an association list. -/
def mapInsert {α : Type} (m : List (String × α)) (k : String) (v : α) :
    List (String × α) :=
  (k, v) :: mapErase m k

/-! ### Session manager (session package) -/

/-- Constant `SessionTimeout = 30 * time.Minute`, counted here in seconds. -/
def SessionTimeout : Nat := 30 * 60

/-- Constant `MaxSessions = 1000`. -/
def MaxSessions : Nat := 1000

/-- Constant `MaxMessagesPerSession = 200`. -/
def MaxMessagesPerSession : Nat := 200

/-- Go `type ToolCallDecision struct { Approved bool }`. -/
structure ToolCallDecision where
  approved : Bool
  deriving DecidableEq, Repr

/-- Go `type PendingToolCall struct`.  The capacity-one result channel is
embedded as an `Option` cell holding the buffered decision, if any. -/
structure PendingToolCall where
  toolCallID : String
  toolName : String
  arguments : Option JsonValue
  resultCh : Option ToolCallDecision

/-- Non-blocking send on a capacity-one channel: `select \x7b case ch <- d:
default: \x7d` — the value is dropped when the buffer already holds one. -/
def sendNonBlocking (ch : Option ToolCallDecision) (d : ToolCallDecision) :
    Option ToolCallDecision :=
  match ch with
  | none => some d
  | some d0 => some d0

/-- Go `type Session struct` (minus the mutex, which serializes access and
has no pure counterpart). -/
structure Session where
  ID : String
  UserID : String
  Messages : List Message
  Mode : ChatMode
  PendingConfirmations : List (String × PendingToolCall)
  CreatedAt : Nat
  LastAccessedAt : Nat

/-- Go `type SessionManager struct { sessions map[string]*Session }`. -/
structure SessionManager where
  sessions : List (String × Session)

/-- Function `NewSessionManager` (without the background cleanup goroutine,
whose ticks are modelled as explicit `CleanupExpired` calls). -/
def NewSessionManager : SessionManager := ⟨[]⟩

/-- Method `evictLRU` removes the least-recently-used session.  Ties are
broken by list position, standing in for the unspecified Go map iteration
order. -/
def SessionManager.evictLRU (sm : SessionManager) : SessionManager :=
  let oldest := sm.sessions.foldl
    (fun acc p =>
      match acc with
      | none => some (p.1, p.2.LastAccessedAt)
      | some (oid, ot) =>
          if p.2.LastAccessedAt < ot then some (p.1, p.2.LastAccessedAt)
          else some (oid, ot))
    none
  match oldest with
  | none => sm
  | some (oid, _) => ⟨mapErase sm.sessions oid⟩

/-- Method `GetOrCreate` retrieves an existing session or creates a new one;
when the stored session belongs to a different user, a user-scoped session
keyed by `sessionID ++ "-" ++ userID` is created or reused instead.  The
wall-clock instant `time.Now()` is passed in as `now`. -/
def SessionManager.GetOrCreate (sm : SessionManager) (sessionID : String)
    (mode : ChatMode) (userID : String) (now : Nat) :
    SessionManager × Session :=
  match mapFind sm.sessions sessionID with
  | some s =>
    if s.UserID != "" && userID != "" && s.UserID != userID then
      let sessionID := sessionID ++ "-" ++ userID
      match mapFind sm.sessions sessionID with
      | some s2 =>
        let s2 := { s2 with LastAccessedAt := now, Mode := mode }
        (⟨mapInsert sm.sessions sessionID s2⟩, s2)
      | none =>
        let s : Session :=
          ⟨sessionID, userID, [], mode, [], now, now⟩
        (⟨mapInsert sm.sessions sessionID s⟩, s)
    else
      let s := { s with LastAccessedAt := now, Mode := mode }
      (⟨mapInsert sm.sessions sessionID s⟩, s)
  | none =>
    let sm := if sm.sessions.length ≥ MaxSessions then sm.evictLRU else sm
    let s : Session := ⟨sessionID, userID, [], mode, [], now, now⟩
    (⟨mapInsert sm.sessions sessionID s⟩, s)

/-- Method `Get` retrieves an existing session, touching its
last-accessed-at instant. -/
def SessionManager.Get (sm : SessionManager) (sessionID : String)
    (now : Nat) : SessionManager × Option Session :=
  match mapFind sm.sessions sessionID with
  | some s =>
    let s := { s with LastAccessedAt := now }
    (⟨mapInsert sm.sessions sessionID s⟩, some s)
  | none => (sm, none)

/-- Method `GetMessages` returns a snapshot of the messages of the session
(value copy in Go; the list itself here). -/
def SessionManager.GetMessages (sm : SessionManager) (sessionID : String) :
    Except String (List Message) :=
  match mapFind sm.sessions sessionID with
  | none => .error ("session " ++ sessionID ++ " not found")
  | some s => .ok s.Messages

/-- Method `ValidateSessionOwner` checks that the given user matches the
owner of the session. -/
def SessionManager.ValidateSessionOwner (sm : SessionManager)
    (sessionID userID : String) : Except String Unit :=
  match mapFind sm.sessions sessionID with
  | none => .error ("session " ++ sessionID ++ " not found")
  | some s =>
    if s.UserID != "" && userID != "" && s.UserID != userID then
      .error ("session " ++ sessionID ++ " does not belong to the requesting user")
    else
      .ok ()

/-- Method `AddMessage` appends a message to the conversation history of the
session, trimming the oldest entries when the count exceeds
`MaxMessagesPerSession`. -/
def SessionManager.AddMessage (sm : SessionManager) (sessionID : String)
    (msg : Message) (now : Nat) : Except String SessionManager :=
  match mapFind sm.sessions sessionID with
  | none => .error ("session " ++ sessionID ++ " not found")
  | some s =>
    let msgs := s.Messages ++ [msg]
    let msgs :=
      if msgs.length > MaxMessagesPerSession then
        msgs.drop (msgs.length - MaxMessagesPerSession)
      else msgs
    .ok ⟨mapInsert sm.sessions sessionID
      { s with Messages := msgs, LastAccessedAt := now }⟩

/-- Method `AddPendingConfirmation` registers a tool call awaiting user
confirmation. -/
def SessionManager.AddPendingConfirmation (sm : SessionManager)
    (sessionID : String) (pending : PendingToolCall) :
    Except String SessionManager :=
  match mapFind sm.sessions sessionID with
  | none => .error ("session " ++ sessionID ++ " not found")
  | some s =>
    let pcs := mapInsert s.PendingConfirmations pending.toolCallID pending
    .ok ⟨mapInsert sm.sessions sessionID { s with PendingConfirmations := pcs }⟩

/-- Method `ResolveConfirmation` resolves a pending tool call confirmation:
the entry is removed before the decision is sent, and the send is
non-blocking.  The second component of the result is the state of the shared
result channel after the send (the cell read by the waiting engine). -/
def SessionManager.ResolveConfirmation (sm : SessionManager)
    (sessionID toolCallID : String) (approved : Bool) :
    Except String (SessionManager × Option ToolCallDecision) :=
  match mapFind sm.sessions sessionID with
  | none => .error ("session " ++ sessionID ++ " not found")
  | some s =>
    match mapFind s.PendingConfirmations toolCallID with
    | none => .error ("no pending confirmation for tool call " ++ toolCallID)
    | some pending =>
      let pcs := mapErase s.PendingConfirmations toolCallID
      let s := { s with PendingConfirmations := pcs }
      let ch := sendNonBlocking pending.resultCh ⟨approved⟩
      .ok (⟨mapInsert sm.sessions sessionID s⟩, ch)

/-! ### Chat engine (ai package, server.go) -/

/-- Constant `maxAgenticLoopIterations = 20`. -/
def maxAgenticLoopIterations : Nat := 20

/-- Model of the standard library JSON codec used by the engine
(`json.Unmarshal` returning an error becomes `none`; `json.Marshal` is
total on values produced by decoding). -/
structure JsonCodec where
  unmarshal : String → Option JsonValue
  marshal : JsonValue → String

/-- Go `json.Marshal` applied to a possibly-nil `interface\x7b\x7d`: nil
marshals to the literal `null`. -/
def JsonCodec.marshalOpt (c : JsonCodec) : Option JsonValue → String
  | none => "null"
  | some v => c.marshal v

/-- Outbound `ChatResponseEvent`, one constructor per `sendEvent` call site
shape in server.go.  The two `tool_call` emissions share one constructor:
the first carries no `arguments_json` key (`none`), the second carries it. -/
inductive OutEvent where
  | sessionMetadata (sessionID modelName : String) (availableTools : List String) : OutEvent
  | progress (message : String) (percentage : Int) : OutEvent
  | markdownChunk (content : String) : OutEvent
  | toolCall (toolCallID toolName : String) (readOnly : Bool)
      (argumentsJSON : Option String) : OutEvent
  | toolResult (toolCallID resultJSON : String) (success : Bool) : OutEvent
  | confirmationRequest (toolCallID toolName description argumentsJSON : String) : OutEvent
  | errorEvent (message code : String) (retryable : Bool) : OutEvent

/-- The wire `type` string of an outbound event. -/
def OutEvent.eventType : OutEvent → String
  | .sessionMetadata .. => "session_metadata"
  | .progress .. => "progress"
  | .markdownChunk .. => "markdown_chunk"
  | .toolCall .. => "tool_call"
  | .toolResult .. => "tool_result"
  | .confirmationRequest .. => "confirmation_request"
  | .errorEvent .. => "error"

/-- Count of events of wire type `error` in a trace. -/
def countErrorEvents (evs : List OutEvent) : Nat :=
  (evs.filter (fun e => e.eventType == "error")).length

/-- The sanitized provider-failure event emitted by `StreamChat` when the
provider reports an error. -/
def providerErrorEvent : OutEvent :=
  .errorEvent "An error occurred communicating with the AI provider. Please try again."
    "provider_error" true

/-- State of the inline event-drain loop of one `StreamChat` iteration,
together with the trace of events emitted so far. -/
structure DrainState where
  textContent : String
  currentToolCall : Option ContentBlock
  toolCalls : List ContentBlock
  toolCallJSON : String
  stopReason : String
  events : List OutEvent

/-- Drain state at the top of an iteration. -/
def initDrainState : DrainState := ⟨"", none, [], "", "", []⟩

/-- Helper `isToolReadOnly` of the server: unknown tools count as not
read-only. -/
def isToolReadOnly (reg : ToolRegistry) (name : String) : Bool :=
  match reg.Get name with
  | none => false
  | some t => t.IsReadOnly

/-- One step of the `for event := range eventCh` switch in `StreamChat`. -/
def drainStep (codec : JsonCodec) (reg : ToolRegistry) (st : DrainState)
    (event : StreamEvent) : DrainState :=
  if event.type == "content_block_start" then
    match event.contentBlock with
    | none => st
    | some cb =>
      if cb.type == "tool_use" then
        { st with
          currentToolCall := some { type := "tool_use", id := cb.id, name := cb.name },
          toolCallJSON := "",
          events := st.events ++
            [.toolCall cb.id cb.name (isToolReadOnly reg cb.name) none] }
      else st
  else if event.type == "content_block_delta" then
    match event.delta with
    | none => st
    | some d =>
      if d.type == "text_delta" then
        if d.text != "" then
          { st with textContent := st.textContent ++ d.text,
                    events := st.events ++ [.markdownChunk d.text] }
        else st
      else if d.type == "input_json_delta" then
        if d.partialJSON != "" then
          { st with toolCallJSON := st.toolCallJSON ++ d.partialJSON }
        else st
      else st
  else if event.type == "content_block_stop" then
    match st.currentToolCall with
    | none => st
    | some ctc =>
      let input :=
        if st.toolCallJSON.length > 0 then
          match codec.unmarshal st.toolCallJSON with
          | some v => v
          | none => JsonValue.emptyObj
        else JsonValue.emptyObj
      let ctc := { ctc with input := some input }
      let argsJSON := codec.marshal input
      { st with
        toolCalls := st.toolCalls ++ [ctc],
        currentToolCall := none,
        events := st.events ++
          [.toolCall ctc.id ctc.name (isToolReadOnly reg ctc.name) (some argsJSON)] }
  else if event.type == "message_delta" then
    match event.delta with
    | none => st
    | some d =>
      if d.stopReason != "" then { st with stopReason := d.stopReason } else st
  else st

/-- Draining a whole provider event stream. -/
def drain (codec : JsonCodec) (reg : ToolRegistry) (st : DrainState)
    (events : List StreamEvent) : DrainState :=
  events.foldl (drainStep codec reg) st

/-- Outcome of the three-way wait on a pending confirmation (decision
channel, context cancellation, or the 10-minute timeout), supplied as an
oracle keyed by tool-call id since the decision arrives concurrently. -/
inductive ConfirmOutcome where
  | decision (approved : Bool) : ConfirmOutcome
  | ctxDone : ConfirmOutcome
  | timeout : ConfirmOutcome

/-- Dynamic dispatch of `securedTool.Execute`: result of the inner tool of
the named registry entry, or an execute-level error string. -/
abbrev ExecFn := String → ChatMode → JsonValue → Except String ToolResult

/-- Deterministic model of one provider call: the contents of `eventCh`
until it closes and the value then read from `errCh` (`none` for nil),
keyed by the call count and the request actually posted. -/
abbrev ProviderFn :=
  Nat → List Message → List ToolDefinition → String → List StreamEvent × Option String

/-- Everything `AIServer` holds plus the oracles for the impure edges:
provider stream, tool execution, confirmation outcome, wall clock. -/
structure EngineConfig where
  codec : JsonCodec
  registry : ToolRegistry
  modelName : String
  systemPrompt : String
  provider : ProviderFn
  exec : ExecFn
  confirm : String → ConfirmOutcome
  now : Nat

/-- Go type-switch `tc.Input.(map[string]interface\x7b\x7d)` with fallback
to the empty object. -/
def inputAsObject : Option JsonValue → JsonValue
  | some (JsonValue.obj fs) => JsonValue.obj fs
  | _ => JsonValue.emptyObj

/-- Go type-switch used when filling `pending.Arguments`: set only when the
input is an object. -/
def inputObjectOrNil : Option JsonValue → Option JsonValue
  | some (JsonValue.obj fs) => some (JsonValue.obj fs)
  | _ => none

/-- The execution tail of `executeToolCall` (progress event, `Execute`,
error flattening, `tool_result` event). -/
def execPhase (cfg : EngineConfig) (sm : SessionManager) (mode : ChatMode)
    (tc : ContentBlock) (evs : List OutEvent) :
    SessionManager × List OutEvent × Except String ToolResult :=
  let args := inputAsObject tc.input
  let evs := evs ++ [.progress ("Executing " ++ tc.name ++ "...") (-1)]
  let result :=
    match cfg.exec tc.name mode args with
    | .error e => ToolResult.mk ("Tool execution error: " ++ e) true
    | .ok r => r
  let evs := evs ++ [.toolResult tc.id result.content (!result.isError)]
  (sm, evs, .ok result)

/-- Event emitted when a mutating tool call needs user confirmation. -/
def confirmationRequestEvent (c : JsonCodec) (tc : ContentBlock) : OutEvent :=
  .confirmationRequest tc.id tc.name
    ("Execute " ++ tc.name ++ " with the provided arguments") (c.marshalOpt tc.input)

/-- Method `executeToolCall`: registry lookup, mode blocking, confirmation
wait, then execution.  On a delivered decision the concurrent
`ResolveConfirmation` has already removed the pending entry; on timeout or
cancellation the entry stays behind. -/
def executeToolCall (cfg : EngineConfig) (sm : SessionManager)
    (sessID : String) (mode : ChatMode) (tc : ContentBlock) :
    SessionManager × List OutEvent × Except String ToolResult :=
  match cfg.registry.Get tc.name with
  | none => (sm, [], .ok ⟨"Unknown tool: " ++ tc.name, true⟩)
  | some securedTool =>
    if securedTool.IsBlocked mode then
      (sm, [],
        .ok ⟨"Tool " ++ tc.name ++
          " is not available in Ask mode. Switch to Agent mode to use mutating tools.",
          true⟩)
    else if securedTool.NeedsConfirmation mode then
      match sm.AddPendingConfirmation sessID
          ⟨tc.id, tc.name, inputObjectOrNil tc.input, none⟩ with
      | .error e =>
        (sm, [confirmationRequestEvent cfg.codec tc],
          .error ("failed to add pending confirmation: " ++ e))
      | .ok sm2 =>
        match cfg.confirm tc.id with
        | .ctxDone =>
          (sm2, [confirmationRequestEvent cfg.codec tc], .error "context canceled")
        | .timeout =>
          (sm2, [confirmationRequestEvent cfg.codec tc],
            .ok ⟨"Tool call " ++ tc.name ++ " timed out waiting for user confirmation.",
              true⟩)
        | .decision approved =>
          match sm2.ResolveConfirmation sessID tc.id approved with
          | .ok (sm3, _) =>
            if approved then
              execPhase cfg sm3 mode tc [confirmationRequestEvent cfg.codec tc]
            else
              (sm3, [confirmationRequestEvent cfg.codec tc],
                .ok ⟨"Tool call " ++ tc.name ++ " was denied by the user.", true⟩)
          | .error _ =>
            if approved then
              execPhase cfg sm2 mode tc [confirmationRequestEvent cfg.codec tc]
            else
              (sm2, [confirmationRequestEvent cfg.codec tc],
                .ok ⟨"Tool call " ++ tc.name ++ " was denied by the user.", true⟩)
    else
      execPhase cfg sm mode tc []

/-- The tool-execution stage of one loop iteration: run every collected
tool call in order and build one `tool_result` content block per call. -/
def execAll (cfg : EngineConfig) (sm : SessionManager) (sessID : String)
    (mode : ChatMode) : List ContentBlock →
    SessionManager × List OutEvent × List ContentBlock
  | [] => (sm, [], [])
  | tc :: rest =>
    let (sm1, evs1, res) := executeToolCall cfg sm sessID mode tc
    let block : ContentBlock :=
      match res with
      | .error e =>
        { type := "tool_result", toolUseID := tc.id,
          content := "Error: " ++ e, isError := true }
      | .ok r =>
        { type := "tool_result", toolUseID := tc.id,
          content := r.content, isError := r.isError }
    let (sm2, evs2, blocks) := execAll cfg sm1 sessID mode rest
    (sm2, evs1 ++ evs2, block :: blocks)

/-- Append with the error logged and ignored, as the engine does around
`AddMessage` (`glog.Warningf` and continue). -/
def appendOr (sm : SessionManager) (sid : String) (msg : Message)
    (now : Nat) : SessionManager :=
  match sm.AddMessage sid msg now with
  | .ok sm2 => sm2
  | .error _ => sm

/-- The content blocks of the assistant turn: the accumulated text block,
when any text arrived, followed by the committed tool_use blocks. -/
def assistantBlocks (st : DrainState) : List ContentBlock :=
  (if st.textContent.length > 0 then
    [{ type := "text", text := st.textContent }]
   else []) ++ st.toolCalls

/-- Outcome of one agentic-loop iteration. -/
inductive IterOutcome where
  | providerError (e : String) : IterOutcome
  | getMessagesError (e : String) : IterOutcome
  | finished : IterOutcome
  | continueLoop : IterOutcome

/-- Result of one agentic-loop iteration. -/
structure IterResult where
  sm : SessionManager
  events : List OutEvent
  outcome : IterOutcome

/-- One iteration of the agentic loop of `StreamChat`: progress event,
message snapshot, provider call, drain, error check, assistant append,
stop-reason check, tool execution and tool-result append. -/
def loopIter (cfg : EngineConfig) (sm : SessionManager) (sessID : String)
    (mode : ChatMode) (toolDefs : List ToolDefinition) (iteration : Nat) :
    IterResult :=
  let evs : List OutEvent := [.progress "Thinking..." (-1)]
  match sm.GetMessages sessID with
  | .error e => ⟨sm, evs, .getMessagesError e⟩
  | .ok messages =>
    let (streamEvents, errOpt) :=
      cfg.provider iteration messages toolDefs cfg.systemPrompt
    let st := drain cfg.codec cfg.registry initDrainState streamEvents
    let evs := evs ++ st.events
    match errOpt with
    | some e => ⟨sm, evs ++ [providerErrorEvent], .providerError e⟩
    | none =>
      let sm :=
        if (assistantBlocks st).length > 0 then
          appendOr sm sessID ⟨"assistant", .blocks (assistantBlocks st)⟩ cfg.now
        else sm
      if st.stopReason != "tool_use" || st.toolCalls.isEmpty then
        ⟨sm, evs, .finished⟩
      else
        let (sm1, evs1, toolResults) := execAll cfg sm sessID mode st.toolCalls
        let sm2 := appendOr sm1 sessID ⟨"user", .blocks toolResults⟩ cfg.now
        ⟨sm2, evs ++ evs1, .continueLoop⟩

/-- The bounded agentic loop: at most `fuel` further iterations, starting
at call count `iteration`.  Returns the emitted events appended to `acc`,
the error returned by `StreamChat` (`none` for nil) and the final session
state. -/
def chatLoop (cfg : EngineConfig) (sessID : String) (mode : ChatMode)
    (toolDefs : List ToolDefinition) :
    Nat → Nat → SessionManager → List OutEvent →
    List OutEvent × Option String × SessionManager
  | 0, _, sm, acc => (acc, none, sm)
  | fuel + 1, iteration, sm, acc =>
    let r := loopIter cfg sm sessID mode toolDefs iteration
    let acc := acc ++ r.events
    match r.outcome with
    | .providerError e => (acc, some e, r.sm)
    | .getMessagesError e => (acc, some ("failed to get messages: " ++ e), r.sm)
    | .finished => (acc, none, r.sm)
    | .continueLoop => chatLoop cfg sessID mode toolDefs fuel (iteration + 1) r.sm acc

/-- Go `type ChatRequest struct` (the user id is set by the server from the
request headers, not from JSON). -/
structure ChatRequest where
  message : String
  sessionID : String
  mode : Int
  userID : String

/-- Mode validation of `StreamChat`: only Ask and Agent are valid, unknown
values default to Ask (fail-closed). -/
def normalizeMode (m : Int) : ChatMode :=
  if m != ChatModeAsk && m != ChatModeAgent then ChatModeAsk else m

/-- Body of `StreamChat` after mode normalization: session fetch, metadata
event, user-message append, tool listing, then the agentic loop. -/
def streamChatWithMode (cfg : EngineConfig) (sm : SessionManager)
    (req : ChatRequest) (mode : ChatMode) :
    List OutEvent × Option String × SessionManager :=
  let (sm, sess) := sm.GetOrCreate req.sessionID mode req.userID cfg.now
  let ev0 : OutEvent :=
    .sessionMetadata sess.ID cfg.modelName cfg.registry.ListToolNames
  let sm := appendOr sm sess.ID ⟨"user", .text req.message⟩ cfg.now
  let toolDefs := cfg.registry.ListForMode mode
  let (evs, err, sm) :=
    chatLoop cfg sess.ID mode toolDefs maxAgenticLoopIterations 0 sm []
  (ev0 :: evs, err, sm)

/-- Method `StreamChat` of `AIServer`: mode normalization, session fetch,
metadata event, user-message append, tool listing, then the agentic loop.
Returns the full event trace, the returned error (`none` for nil) and the
final session-manager state. -/
def StreamChat (cfg : EngineConfig) (sm : SessionManager) (req : ChatRequest) :
    List OutEvent × Option String × SessionManager :=
  streamChatWithMode cfg sm req (normalizeMode req.mode)

/-! ### SSE endpoint framing (NewSSEHandler) -/

/-- One frame written to the response body: a `data:` JSON frame or the
terminating `data: [DONE]` frame. -/
inductive SSEFrame where
  | dataFrame (e : OutEvent) : SSEFrame
  | done : SSEFrame

/-- The error-typed frame predicate. -/
def SSEFrame.isErrorFrame : SSEFrame → Bool
  | .dataFrame e => e.eventType == "error"
  | .done => false

/-- Frames written by `NewSSEHandler` after the stream is opened: every
engine event in order, then — when `StreamChat` returned a non-nil error —
one further sanitized error event with code `internal_error`, then the
terminating `[DONE]` frame. -/
def handlerFrames (res : List OutEvent × Option String × SessionManager) :
    List SSEFrame :=
  (res.1.map .dataFrame) ++
  (match res.2.1 with
   | some _ =>
     [SSEFrame.dataFrame
       (.errorEvent "An error occurred processing your request. Please try again."
         "internal_error" false)]
   | none => []) ++ [SSEFrame.done]

/-- Count of error-typed frames in an SSE response. -/
def countErrorFrames (frames : List SSEFrame) : Nat :=
  (frames.filter SSEFrame.isErrorFrame).length

/-! ### Derived observations used in the statements -/

/-- Messages of a stored session, if the session exists. -/
def sessionMessages (sm : SessionManager) (sid : String) :
    Option (List Message) :=
  (mapFind sm.sessions sid).map (·.Messages)

/-- Well-formedness of the session store: every stored session is keyed by
its own id.  Holds for every store built through the manager operations. -/
def SessionManager.Wf (sm : SessionManager) : Prop :=
  ∀ p ∈ sm.sessions, p.2.ID = p.1

instance (sm : SessionManager) : Decidable sm.Wf := by
  unfold SessionManager.Wf; infer_instance

/-- Provider event opening a `tool_use` content block. -/
def toolUseStartEvent (id name : String) : StreamEvent :=
  { type := "content_block_start",
    contentBlock := some { type := "tool_use", id := id, name := name } }

/-- Provider event carrying one fragment of tool-argument JSON. -/
def inputJsonDeltaEvent (fragment : String) : StreamEvent :=
  { type := "content_block_delta",
    delta := some { type := "input_json_delta", partialJSON := fragment } }

/-- Provider event closing the current content block. -/
def blockStopEvent : StreamEvent :=
  { type := "content_block_stop" }

/-- Provider event carrying a stop reason. -/
def stopReasonEvent (reason : String) : StreamEvent :=
  { type := "message_delta", delta := some { stopReason := reason } }

/-- Provider event carrying a text fragment. -/
def textDeltaEvent (fragment : String) : StreamEvent :=
  { type := "content_block_delta",
    delta := some { type := "text_delta", text := fragment } }

/-- One well-formed `tool_use` block on the wire: start, argument
fragments, stop. -/
def blockEvents (id name : String) (fragments : List String) :
    List StreamEvent :=
  toolUseStartEvent id name :: (fragments.map inputJsonDeltaEvent ++ [blockStopEvent])

/-- The input object committed for an accumulated argument buffer: parsed
when non-empty and well-formed, the empty object otherwise. -/
def parsedInput (codec : JsonCodec) (buf : String) : JsonValue :=
  if buf.length > 0 then
    match codec.unmarshal buf with
    | some v => v
    | none => JsonValue.emptyObj
  else JsonValue.emptyObj

/-! ### Concrete instances used by witnesses and counterexamples -/

/-- A read-only example tool. -/
def roTool : Tool := ⟨"list_runs", "lists pipeline runs", JsonValue.emptyObj, true⟩

/-- A mutating example tool. -/
def mutTool : Tool := ⟨"delete_run", "deletes a run", JsonValue.emptyObj, false⟩

/-- A registry holding one read-only and one mutating tool. -/
def exReg : ToolRegistry := (NewToolRegistry.Register roTool).Register mutTool

/-- A pending confirmation for a mutating tool call. -/
def pendingTC : PendingToolCall := ⟨"tc-1", "delete_run", none, none⟩

/-- A stored session owned by alice with one pending confirmation. -/
def sessAlice : Session :=
  ⟨"sess-1", "alice", [], ChatModeAgent, [("tc-1", pendingTC)], 0, 0⟩

/-- A one-session store. -/
def smAlice : SessionManager := ⟨[("sess-1", sessAlice)]⟩

/-- The store after the first successful resolution of the pending call. -/
def smAfterResolve : SessionManager :=
  match smAlice.ResolveConfirmation "sess-1" "tc-1" true with
  | .ok (sm, _) => sm
  | .error _ => smAlice

/-- An example user message. -/
def exMsg : Message := ⟨"user", .text "hello"⟩

/-- A trivial JSON codec for concrete runs: decoding always fails (so every
committed input degrades to the empty object), encoding is a constant. -/
def exCodec : JsonCodec := ⟨fun _ => none, fun _ => "{}"⟩

/-- An engine configuration whose provider fails immediately on the first
call, mirroring the provider-error unit test. -/
def errCfg : EngineConfig :=
  { codec := exCodec
    registry := NewToolRegistry
    modelName := "test-model"
    systemPrompt := ""
    provider := fun _ _ _ _ => ([], some "upstream API is unavailable")
    exec := fun _ _ _ => .ok ⟨"", false⟩
    confirm := fun _ => .timeout
    now := 0 }

/-- The chat request of the provider-error scenario. -/
def errReq : ChatRequest := ⟨"Hi", "test-session-err", 1, ""⟩

/-- An engine configuration whose provider requests the read-only tool on
every call and never errors, so the iteration cap is what ends the loop. -/
def capCfg : EngineConfig :=
  { codec := exCodec
    registry := exReg
    modelName := "test-model"
    systemPrompt := ""
    provider := fun _ _ _ _ =>
      (blockEvents "call-1" "list_runs" [] ++ [stopReasonEvent "tool_use"], none)
    exec := fun _ _ _ => .ok ⟨"3 runs", false⟩
    confirm := fun _ => .decision true
    now := 0 }

/-- The chat request of the iteration-cap scenario. -/
def capReq : ChatRequest := ⟨"list my runs", "sess-cap", 1, ""⟩

/-- A fresh single-tenant session used for the tool-use turn scenario. -/
def sess9 : Session := ⟨"s9", "", [], ChatModeAsk, [], 0, 0⟩

/-- A one-session store for the tool-use turn scenario. -/
def sm9 : SessionManager := ⟨[("s9", sess9)]⟩

/-- An interleaved stream: a second `tool_use` block starts before the first
one stops. -/
def interleavedEvents : List StreamEvent :=
  [toolUseStartEvent "A" "list_runs",
   toolUseStartEvent "B" "delete_run",
   blockStopEvent,
   blockStopEvent]

/-- Count of `content_block_start` events opening `tool_use` blocks. -/
def countToolUseStarts (events : List StreamEvent) : Nat :=
  (events.filter (fun e =>
    e.type == "content_block_start" &&
      (match e.contentBlock with
       | some cb => cb.type == "tool_use"
       | none => false))).length

/-- Count of `tool_call` events that carry an `arguments_json` payload (the
per-block second emission). -/
def countArgumentsToolCallEvents (evs : List OutEvent) : Nat :=
  (evs.filter (fun e =>
    match e with
    | .toolCall _ _ _ (some _) => true
    | _ => false)).length

/-! ### Map lemmas -/

theorem mapFind_insert_self {α : Type} (m : List (String × α)) (k : String)
    (v : α) : mapFind (mapInsert m k v) k = some v := by
  simp [mapFind, mapInsert]

theorem mapFind_erase_self {α : Type} (m : List (String × α)) (k : String) :
    mapFind (mapErase m k) k = none := by
  induction m with
  | nil => rfl
  | cons x xs ih =>
    by_cases hx : x.1 = k
    · simpa [mapErase, hx] using ih
    · simpa [mapErase, mapFind, hx] using ih

theorem mapFind_erase_ne {α : Type} (m : List (String × α)) (k k' : String)
    (h : k' ≠ k) : mapFind (mapErase m k) k' = mapFind m k' := by
  have hk : k ≠ k' := fun hc => h hc.symm
  induction m with
  | nil => rfl
  | cons x xs ih =>
    by_cases hx : x.1 = k
    · have hx' : x.1 ≠ k' := fun hc => h (hx ▸ hc).symm
      rw [mapErase, if_pos hx, ih, mapFind, if_neg hx']
    · by_cases hx' : x.1 = k'
      · rw [mapErase, if_neg hx, mapFind, if_pos hx', mapFind, if_pos hx']
      · rw [mapErase, if_neg hx, mapFind, if_neg hx', mapFind, if_neg hx', ih]

theorem mapFind_insert_ne {α : Type} (m : List (String × α)) (k k' : String)
    (v : α) (h : k' ≠ k) :
    mapFind (mapInsert m k v) k' = mapFind m k' := by
  rw [mapInsert, mapFind, if_neg (fun hc : k = k' => h hc.symm)]
  exact mapFind_erase_ne m k k' h

theorem mapFind_mem {α : Type} (m : List (String × α)) (k : String) (v : α)
    (h : mapFind m k = some v) : (k, v) ∈ m := by
  induction m with
  | nil => simp [mapFind] at h
  | cons x xs ih =>
    by_cases hx : x.1 = k
    · rw [mapFind, if_pos hx] at h
      have hx2 : x = (k, v) := by
        cases x
        simp only [Option.some_inj] at h
        simp_all
      simp [hx2]
    · rw [mapFind, if_neg hx] at h
      exact List.mem_cons_of_mem _ (ih h)

theorem mapFind_isSome_insert {α : Type} (m : List (String × α))
    (k k' : String) (v : α) (h : (mapFind m k').isSome) :
    (mapFind (mapInsert m k v) k').isSome := by
  by_cases hk : k' = k
  · subst hk; rw [mapFind_insert_self]; rfl
  · rw [mapFind_insert_ne m k k' v hk]; exact h

/-- Appending a dash-joined suffix changes a string: used for the derived
session id. -/
theorem derived_id_ne (sid b : String) : sid ++ "-" ++ b ≠ sid := by
  intro h
  have hlen := congrArg String.length h
  rw [String.length_append, String.length_append] at hlen
  have hone : ("-" : String).length = 1 := rfl
  rw [hone] at hlen
  omega

/-! ### C1 -/

/-- C1: a tool wrapped by NewSecuredTool is never blocked and never needs
confirmation when read-only; when mutating it is blocked exactly in Ask
mode and needs confirmation exactly in Agent mode. -/
theorem c1_secured_tool_mode_policy (t : Tool) :
    (t.isReadOnly = true →
      (NewSecuredTool t).IsBlocked ChatModeAsk = false ∧
      (NewSecuredTool t).IsBlocked ChatModeAgent = false ∧
      (NewSecuredTool t).NeedsConfirmation ChatModeAsk = false ∧
      (NewSecuredTool t).NeedsConfirmation ChatModeAgent = false) ∧
    (t.isReadOnly = false →
      (NewSecuredTool t).IsBlocked ChatModeAsk = true ∧
      (NewSecuredTool t).IsBlocked ChatModeAgent = false ∧
      (NewSecuredTool t).NeedsConfirmation ChatModeAgent = true ∧
      (NewSecuredTool t).NeedsConfirmation ChatModeAsk = false) := by
  cases h : t.isReadOnly <;>
    simp [NewSecuredTool, SecuredTool.IsBlocked, SecuredTool.NeedsConfirmation, h,
      ChatModeAsk, ChatModeAgent]

/-- Witness for C1 at the two concrete example tools. -/
theorem c1_witness :
    (NewSecuredTool roTool).IsBlocked ChatModeAsk = false ∧
    (NewSecuredTool mutTool).IsBlocked ChatModeAsk = true ∧
    (NewSecuredTool mutTool).NeedsConfirmation ChatModeAgent = true :=
  ⟨((c1_secured_tool_mode_policy roTool).1 rfl).1,
   ((c1_secured_tool_mode_policy mutTool).2 rfl).1,
   ((c1_secured_tool_mode_policy mutTool).2 rfl).2.2.1⟩

/-! ### C2 -/

/-- C2: for a well-formed registry, the Ask-mode tool list is a subset of
the Agent-mode list, the Agent-mode list contains a definition for every
registered tool, and no mutating tool appears in the Ask-mode list. -/
theorem c2_list_for_mode (r : ToolRegistry) (hwf : r.Wf) :
    (∀ d ∈ r.ListForMode ChatModeAsk, d ∈ r.ListForMode ChatModeAgent) ∧
    (∀ p ∈ r.tools,
      (⟨p.2.Name, p.2.Description, p.2.InputSchema⟩ : ToolDefinition) ∈
        r.ListForMode ChatModeAgent) ∧
    (∀ p ∈ r.tools, p.2.IsReadOnly = false →
      ∀ d ∈ r.ListForMode ChatModeAsk, d.name ≠ p.1) := by
  have hagent : r.ListForMode ChatModeAgent =
      r.tools.map (fun p => ⟨p.2.Name, p.2.Description, p.2.InputSchema⟩) := by
    unfold ToolRegistry.ListForMode
    rw [List.filter_eq_self.mpr]
    intro p _
    simp [ChatModeAgent, ChatModeAsk]
  refine ⟨?_, ?_, ?_⟩
  · intro d hd
    rw [hagent]
    unfold ToolRegistry.ListForMode at hd
    obtain ⟨p, hp, rfl⟩ := List.mem_map.mp hd
    exact List.mem_map_of_mem _ (List.mem_of_mem_filter hp)
  · intro p hp
    rw [hagent]
    exact List.mem_map_of_mem _ hp
  · intro p hp hro d hd hname
    unfold ToolRegistry.ListForMode at hd
    obtain ⟨q, hq, rfl⟩ := List.mem_map.mp hd
    have hqmem := List.mem_of_mem_filter hq
    have hcond := List.of_mem_filter hq
    have hqro : q.2.IsReadOnly = true := by
      simpa [ChatModeAsk] using hcond
    have hq1 : q.1 = q.2.Name := hwf.2 q hqmem
    have hkeys : q.1 = p.1 := by
      rw [hq1]
      exact hname
    have hqp : q = p := List.inj_on_of_nodup_map hwf.1 hqmem hp hkeys
    rw [hqp] at hqro
    rw [hqro] at hro
    cases hro

/-- Witness for C2 at the concrete two-tool registry. -/
theorem c2_witness :
    (⟨"delete_run", "deletes a run", JsonValue.emptyObj⟩ : ToolDefinition) ∈
      exReg.ListForMode ChatModeAgent :=
  (c2_list_for_mode exReg (by decide)).2.1 ("delete_run", NewSecuredTool mutTool)
    (List.mem_cons_self _ _)

/-! ### C4 -/

/-- C4 counterexample: a second ResolveConfirmation for the same tool call
is not an error-free no-op — the first call removes the pending entry, so
the repeat returns a no-pending-confirmation error. -/
theorem c4_counterexample :
    (smAlice.ResolveConfirmation "sess-1" "tc-1" true).isOk = true ∧
    (smAfterResolve.ResolveConfirmation "sess-1" "tc-1" true).isOk = false ∧
    smAfterResolve.ResolveConfirmation "sess-1" "tc-1" true =
      .error "no pending confirmation for tool call tc-1" := by
  refine ⟨rfl, rfl, rfl⟩

/-- C4 amended: after a first successful ResolveConfirmation(sid, tcid, v),
every repeated ResolveConfirmation(sid, tcid, v2) returns the
no-pending-confirmation error (the entry was removed by the first call);
no decision is delivered and the store is left as the first call made it. -/
theorem c4_amended_repeat_errors (sm sm1 : SessionManager) (sid tcid : String)
    (v : Bool) (ch : Option ToolCallDecision)
    (h : sm.ResolveConfirmation sid tcid v = .ok (sm1, ch)) (v2 : Bool) :
    sm1.ResolveConfirmation sid tcid v2 =
      .error ("no pending confirmation for tool call " ++ tcid) := by
  unfold SessionManager.ResolveConfirmation at h
  cases hs : mapFind sm.sessions sid with
  | none => rw [hs] at h; simp at h
  | some s =>
    rw [hs] at h
    dsimp only at h
    cases hp : mapFind s.PendingConfirmations tcid with
    | none => rw [hp] at h; simp at h
    | some pending =>
      rw [hp] at h
      dsimp only at h
      simp only [Except.ok.injEq, Prod.mk.injEq] at h
      obtain ⟨hsm1, -⟩ := h
      subst hsm1
      unfold SessionManager.ResolveConfirmation
      dsimp only
      rw [mapFind_insert_self]
      dsimp only
      rw [mapFind_erase_self]

/-- Witness for C4: the concrete repeat after the concrete first success. -/
theorem c4_witness :
    smAfterResolve.ResolveConfirmation "sess-1" "tc-1" false =
      .error ("no pending confirmation for tool call " ++ "tc-1") :=
  c4_amended_repeat_errors smAlice smAfterResolve "sess-1" "tc-1" true
    (some ⟨true⟩) rfl false

/-! ### C5 -/

/-- C5: a GetOrCreate by a different non-empty user B on a session owned by
non-empty A returns a session whose id is the stored id suffixed by B
(hence distinct), and leaves the stored session untouched. -/
theorem c5_ownership_conflict (sm : SessionManager) (S : Session)
    (sid B : String) (mode : ChatMode) (now : Nat) (hwf : sm.Wf)
    (hS : mapFind sm.sessions sid = some S)
    (hA : S.UserID ≠ "") (hB : B ≠ "") (hAB : S.UserID ≠ B) :
    (sm.GetOrCreate sid mode B now).2.ID = sid ++ "-" ++ B ∧
    (sm.GetOrCreate sid mode B now).2.ID ≠ sid ∧
    mapFind (sm.GetOrCreate sid mode B now).1.sessions sid = some S := by
  have hcond : (S.UserID != "" && B != "" && S.UserID != B) = true := by
    simp [bne, hA, hB, hAB]
  have hder := derived_id_ne sid B
  have hne : sid ≠ sid ++ "-" ++ B := fun hc => hder hc.symm
  unfold SessionManager.GetOrCreate
  rw [hS]
  dsimp only
  rw [hcond, if_pos rfl]
  cases h2 : mapFind sm.sessions (sid ++ "-" ++ B) with
  | some s2 =>
    have hid : s2.ID = sid ++ "-" ++ B := hwf _ (mapFind_mem _ _ _ h2)
    dsimp only
    refine ⟨hid, by rw [hid]; exact hder, ?_⟩
    rw [mapFind_insert_ne _ _ _ _ hne]
    exact hS
  | none =>
    dsimp only
    refine ⟨rfl, hder, ?_⟩
    rw [mapFind_insert_ne _ _ _ _ hne]
    exact hS

/-- Witness for C5: bob asking for the session of alice gets the derived
session id, and the stored session is untouched. -/
theorem c5_witness :
    (smAlice.GetOrCreate "sess-1" ChatModeAsk "bob" 5).2.ID = "sess-1-bob" ∧
    mapFind (smAlice.GetOrCreate "sess-1" ChatModeAsk "bob" 5).1.sessions "sess-1" =
      some sessAlice := by
  have h := c5_ownership_conflict smAlice sessAlice "sess-1" "bob" ChatModeAsk 5
    (by decide) rfl (by decide) (by decide) (by decide)
  exact ⟨h.1, h.2.2⟩

/-! ### C6 -/

/-- C6: a successful AddMessage leaves at most MaxMessagesPerSession
messages, keeps the appended message as the last entry, and removes exactly
the oldest messages when the limit was exceeded (the log becomes the
maximal fitting suffix of the appended log). -/
theorem c6_add_message_bounds (sm : SessionManager) (S : Session)
    (sid : String) (msg : Message) (now : Nat)
    (hS : mapFind sm.sessions sid = some S) :
    ∃ sm', sm.AddMessage sid msg now = .ok sm' ∧
      sessionMessages sm' sid =
        some ((S.Messages ++ [msg]).drop
          (S.Messages.length + 1 - MaxMessagesPerSession)) ∧
      ((S.Messages ++ [msg]).drop
          (S.Messages.length + 1 - MaxMessagesPerSession)).length
        ≤ MaxMessagesPerSession ∧
      ((S.Messages ++ [msg]).drop
          (S.Messages.length + 1 - MaxMessagesPerSession)).getLast?
        = some msg := by
  have hlenapp : (S.Messages ++ [msg]).length = S.Messages.length + 1 := by
    simp
  have hdrop_eq :
      (if (S.Messages ++ [msg]).length > MaxMessagesPerSession then
        (S.Messages ++ [msg]).drop
          ((S.Messages ++ [msg]).length - MaxMessagesPerSession)
      else S.Messages ++ [msg])
      = (S.Messages ++ [msg]).drop
          (S.Messages.length + 1 - MaxMessagesPerSession) := by
    rw [hlenapp]
    by_cases hgt : S.Messages.length + 1 > MaxMessagesPerSession
    · rw [if_pos hgt]
    · rw [if_neg hgt, Nat.sub_eq_zero_of_le (Nat.le_of_not_lt hgt), List.drop_zero]
  have heq : sm.AddMessage sid msg now =
      .ok (SessionManager.mk (mapInsert sm.sessions sid
        { S with
          Messages := (S.Messages ++ [msg]).drop
            (S.Messages.length + 1 - MaxMessagesPerSession),
          LastAccessedAt := now })) := by
    unfold SessionManager.AddMessage
    rw [hS]
    dsimp only
    rw [hdrop_eq]
  refine ⟨_, heq, ?_, ?_, ?_⟩
  · unfold sessionMessages
    dsimp only
    rw [mapFind_insert_self]
    rfl
  · rw [List.length_drop, hlenapp]
    simp only [MaxMessagesPerSession]
    omega
  · rw [List.drop_append_of_le_length (by simp only [MaxMessagesPerSession]; omega)]
    exact List.getLast?_concat _

/-- Witness for C6 at a concrete store and message. -/
theorem c6_witness :
    (smAlice.AddMessage "sess-1" exMsg 1).isOk = true := by
  obtain ⟨sm', heq, -, -, -⟩ :=
    c6_add_message_bounds smAlice sessAlice "sess-1" exMsg 1 rfl
  rw [heq]
  rfl

/-! ### Session-operation preservation lemmas -/

theorem sessionMessages_isSome (sm : SessionManager) (sid : String) :
    (sessionMessages sm sid).isSome = (mapFind sm.sessions sid).isSome := by
  unfold sessionMessages
  exact Option.isSome_map' ..

theorem sessionMessages_insert_same (sm : SessionManager) (sid0 : String)
    (s s' : Session) (hfind : mapFind sm.sessions sid0 = some s)
    (hmsg : s'.Messages = s.Messages) (sid : String) :
    sessionMessages ⟨mapInsert sm.sessions sid0 s'⟩ sid = sessionMessages sm sid := by
  unfold sessionMessages
  dsimp only
  by_cases h : sid = sid0
  · subst h
    rw [mapFind_insert_self, hfind]
    simp [hmsg]
  · rw [mapFind_insert_ne _ _ _ _ h]

theorem addPending_ok_sessions (sm : SessionManager) (sid0 : String)
    (p : PendingToolCall) (sm2 : SessionManager)
    (h : sm.AddPendingConfirmation sid0 p = .ok sm2) (sid : String) :
    sessionMessages sm2 sid = sessionMessages sm sid := by
  unfold SessionManager.AddPendingConfirmation at h
  cases hf : mapFind sm.sessions sid0 with
  | none => rw [hf] at h; simp at h
  | some s =>
    rw [hf] at h
    dsimp only at h
    injection h with h2
    rw [← h2]
    exact sessionMessages_insert_same sm sid0 s
      { s with PendingConfirmations :=
          mapInsert s.PendingConfirmations p.toolCallID p } hf rfl sid

theorem resolve_ok_sessions (sm : SessionManager) (sid0 tcid : String)
    (v : Bool) (sm2 : SessionManager) (ch : Option ToolCallDecision)
    (h : sm.ResolveConfirmation sid0 tcid v = .ok (sm2, ch)) (sid : String) :
    sessionMessages sm2 sid = sessionMessages sm sid := by
  unfold SessionManager.ResolveConfirmation at h
  cases hf : mapFind sm.sessions sid0 with
  | none => rw [hf] at h; simp at h
  | some s =>
    rw [hf] at h
    dsimp only at h
    cases hp : mapFind s.PendingConfirmations tcid with
    | none => rw [hp] at h; simp at h
    | some pending =>
      rw [hp] at h
      dsimp only at h
      simp only [Except.ok.injEq, Prod.mk.injEq] at h
      obtain ⟨h1, -⟩ := h
      rw [← h1]
      exact sessionMessages_insert_same sm sid0 s
        { s with PendingConfirmations :=
            mapErase s.PendingConfirmations tcid } hf rfl sid

theorem appendOr_isSome (sm : SessionManager) (sid0 : String)
    (msg : Message) (now : Nat) (sid : String)
    (h : (mapFind sm.sessions sid).isSome) :
    (mapFind (appendOr sm sid0 msg now).sessions sid).isSome := by
  unfold appendOr SessionManager.AddMessage
  cases hf : mapFind sm.sessions sid0 with
  | none => exact h
  | some s =>
    dsimp only
    exact mapFind_isSome_insert _ _ _ _ h

theorem sessions_isSome_of_msgs_eq (sma smb : SessionManager) (sid : String)
    (h : sessionMessages sma sid = sessionMessages smb sid)
    (hb : (mapFind smb.sessions sid).isSome) :
    (mapFind sma.sessions sid).isSome := by
  have h2 := congrArg Option.isSome h
  rw [sessionMessages_isSome, sessionMessages_isSome] at h2
  rw [h2]
  exact hb

/-! ### Event-count lemmas -/

theorem countErrorEvents_append (a b : List OutEvent) :
    countErrorEvents (a ++ b) = countErrorEvents a + countErrorEvents b := by
  simp [countErrorEvents, List.filter_append]

theorem countErrorEvents_concat_non_error (evs : List OutEvent) (ev : OutEvent)
    (h : (ev.eventType == "error") = false) :
    countErrorEvents (evs ++ [ev]) = countErrorEvents evs := by
  simp [countErrorEvents, List.filter_append, List.filter, h]

theorem drain_nil (c : JsonCodec) (r : ToolRegistry) (st : DrainState) :
    drain c r st [] = st := rfl

theorem drain_cons (c : JsonCodec) (r : ToolRegistry) (st : DrainState)
    (e : StreamEvent) (es : List StreamEvent) :
    drain c r st (e :: es) = drain c r (drainStep c r st e) es := rfl

theorem drain_append (c : JsonCodec) (r : ToolRegistry) (st : DrainState)
    (es1 es2 : List StreamEvent) :
    drain c r st (es1 ++ es2) = drain c r (drain c r st es1) es2 := by
  simp [drain, List.foldl_append]

theorem drainStep_countError (c : JsonCodec) (r : ToolRegistry)
    (st : DrainState) (e : StreamEvent) :
    countErrorEvents (drainStep c r st e).events = countErrorEvents st.events := by
  unfold drainStep
  repeat' split
  all_goals first
    | rfl
    | exact countErrorEvents_concat_non_error _ _ rfl

theorem drain_countError (c : JsonCodec) (r : ToolRegistry)
    (evs : List StreamEvent) : ∀ st : DrainState,
    countErrorEvents (drain c r st evs).events = countErrorEvents st.events := by
  induction evs with
  | nil => intro st; rfl
  | cons e es ih =>
    intro st
    rw [drain_cons, ih, drainStep_countError]

/-! ### Tool-execution lemmas -/

theorem executeToolCall_spec (cfg : EngineConfig) (sm : SessionManager)
    (sessID : String) (mode : ChatMode) (tc : ContentBlock) :
    (∀ sid, sessionMessages (executeToolCall cfg sm sessID mode tc).1 sid =
      sessionMessages sm sid) ∧
    countErrorEvents (executeToolCall cfg sm sessID mode tc).2.1 = 0 := by
  unfold executeToolCall
  cases hg : cfg.registry.Get tc.name with
  | none => exact ⟨fun _ => rfl, rfl⟩
  | some securedTool =>
    dsimp only
    by_cases hb : securedTool.IsBlocked mode = true
    · rw [if_pos hb]
      exact ⟨fun _ => rfl, rfl⟩
    · rw [if_neg hb]
      by_cases hc : securedTool.NeedsConfirmation mode = true
      · rw [if_pos hc]
        cases hap : sm.AddPendingConfirmation sessID
            ⟨tc.id, tc.name, inputObjectOrNil tc.input, none⟩ with
        | error e => exact ⟨fun _ => rfl, rfl⟩
        | ok sm2 =>
          have hm2 := addPending_ok_sessions sm sessID _ sm2 hap
          dsimp only
          cases cfg.confirm tc.id with
          | ctxDone => exact ⟨fun sid => hm2 sid, rfl⟩
          | timeout => exact ⟨fun sid => hm2 sid, rfl⟩
          | decision approved =>
            dsimp only
            cases hr : sm2.ResolveConfirmation sessID tc.id approved with
            | ok pair =>
              have hm3 := resolve_ok_sessions sm2 sessID tc.id approved
                pair.1 pair.2 (by rw [hr])
              dsimp only
              by_cases happ : approved = true
              · rw [if_pos happ]
                exact ⟨fun sid => (hm3 sid).trans (hm2 sid), rfl⟩
              · rw [if_neg happ]
                exact ⟨fun sid => (hm3 sid).trans (hm2 sid), rfl⟩
            | error e2 =>
              dsimp only
              by_cases happ : approved = true
              · rw [if_pos happ]
                exact ⟨fun sid => hm2 sid, rfl⟩
              · rw [if_neg happ]
                exact ⟨fun sid => hm2 sid, rfl⟩
      · rw [if_neg hc]
        exact ⟨fun _ => rfl, rfl⟩

theorem execAll_spec (cfg : EngineConfig) (sessID : String) (mode : ChatMode) :
    ∀ (tcs : List ContentBlock) (sm : SessionManager),
    (∀ sid, sessionMessages (execAll cfg sm sessID mode tcs).1 sid =
      sessionMessages sm sid) ∧
    countErrorEvents (execAll cfg sm sessID mode tcs).2.1 = 0 ∧
    List.Forall₂ (fun (b tc : ContentBlock) =>
      b.type = "tool_result" ∧ b.toolUseID = tc.id)
      (execAll cfg sm sessID mode tcs).2.2 tcs := by
  intro tcs
  induction tcs with
  | nil => exact fun sm => ⟨fun _ => rfl, rfl, List.Forall₂.nil⟩
  | cons tc rest ih =>
    intro sm
    have hspec := executeToolCall_spec cfg sm sessID mode tc
    rcases hx : executeToolCall cfg sm sessID mode tc with ⟨sm1, evs1, res⟩
    rw [hx] at hspec
    have hrest := ih sm1
    refine ⟨?_, ?_, ?_⟩
    · intro sid
      simp only [execAll, hx]
      exact (hrest.1 sid).trans (hspec.1 sid)
    · simp only [execAll, hx, countErrorEvents_append, hspec.2, hrest.2.1]
    · simp only [execAll, hx]
      refine List.Forall₂.cons ?_ hrest.2.2
      cases res with
      | error e => exact ⟨rfl, rfl⟩
      | ok r => exact ⟨rfl, rfl⟩

/-! ### Loop-iteration lemmas -/

theorem loopIter_spec (cfg : EngineConfig) (sm : SessionManager)
    (sessID : String) (mode : ChatMode) (toolDefs : List ToolDefinition)
    (iteration : Nat) (h : (mapFind sm.sessions sessID).isSome) :
    (mapFind (loopIter cfg sm sessID mode toolDefs iteration).sm.sessions
      sessID).isSome ∧
    (match (loopIter cfg sm sessID mode toolDefs iteration).outcome with
     | .getMessagesError _ => False
     | .providerError _ =>
       countErrorEvents (loopIter cfg sm sessID mode toolDefs iteration).events = 1 ∧
       (loopIter cfg sm sessID mode toolDefs iteration).events.getLast?
         = some providerErrorEvent
     | .finished =>
       countErrorEvents (loopIter cfg sm sessID mode toolDefs iteration).events = 0
     | .continueLoop =>
       countErrorEvents (loopIter cfg sm sessID mode toolDefs iteration).events = 0) := by
  obtain ⟨s, hs⟩ := Option.isSome_iff_exists.mp h
  have hgm : sm.GetMessages sessID = .ok s.Messages := by
    unfold SessionManager.GetMessages
    rw [hs]
  unfold loopIter
  rw [hgm]
  dsimp only
  cases hp : (cfg.provider iteration s.Messages toolDefs cfg.systemPrompt).2 with
  | some e =>
    dsimp only
    refine ⟨h, ?_, List.getLast?_concat _⟩
    rw [countErrorEvents_append, countErrorEvents_append, drain_countError]
    rfl
  | none =>
    dsimp only
    set stx := drain cfg.codec cfg.registry initDrainState
      (cfg.provider iteration s.Messages toolDefs cfg.systemPrompt).1 with hstx
    set smA := (if (assistantBlocks stx).length > 0 then
        appendOr sm sessID ⟨"assistant", .blocks (assistantBlocks stx)⟩ cfg.now
      else sm) with hsmA
    have hsm1 : (mapFind smA.sessions sessID).isSome := by
      rw [hsmA]
      split
      · exact appendOr_isSome _ _ _ _ _ h
      · exact h
    split
    · refine ⟨hsm1, ?_⟩
      rw [countErrorEvents_append, hstx, drain_countError]
      rfl
    · have hea := execAll_spec cfg sessID mode stx.toolCalls smA
      refine ⟨?_, ?_⟩
      · exact appendOr_isSome _ _ _ _ _
          (sessions_isSome_of_msgs_eq _ _ _ (hea.1 sessID) hsm1)
      · rw [countErrorEvents_append, countErrorEvents_append, hea.2.1, hstx,
          drain_countError]
        rfl

theorem chatLoop_spec (cfg : EngineConfig) (sessID : String) (mode : ChatMode)
    (toolDefs : List ToolDefinition) : ∀ (fuel iteration : Nat)
    (sm : SessionManager) (acc : List OutEvent),
    (mapFind sm.sessions sessID).isSome →
    (mapFind (chatLoop cfg sessID mode toolDefs fuel iteration sm acc).2.2.sessions
      sessID).isSome ∧
    countErrorEvents (chatLoop cfg sessID mode toolDefs fuel iteration sm acc).1 =
      countErrorEvents acc +
        (match (chatLoop cfg sessID mode toolDefs fuel iteration sm acc).2.1 with
         | some _ => 1
         | none => 0) ∧
    ((chatLoop cfg sessID mode toolDefs fuel iteration sm acc).2.1.isSome →
      (chatLoop cfg sessID mode toolDefs fuel iteration sm acc).1.getLast? =
        some providerErrorEvent) := by
  intro fuel
  induction fuel with
  | zero =>
    intro it sm acc h
    exact ⟨h, by simp [chatLoop], by intro hc; simp [chatLoop] at hc⟩
  | succ fuel ih =>
    intro it sm acc h
    have hli := loopIter_spec cfg sm sessID mode toolDefs it h
    simp only [chatLoop]
    cases ho : (loopIter cfg sm sessID mode toolDefs it).outcome with
    | providerError e =>
      rw [ho] at hli
      dsimp only at hli
      refine ⟨hli.1, ?_, ?_⟩
      · rw [countErrorEvents_append, hli.2.1]
      · intro hc
        simp [List.getLast?_append, hli.2.2]
    | getMessagesError e =>
      rw [ho] at hli
      dsimp only at hli
      exact absurd hli.2 (fun hc => hc)
    | finished =>
      rw [ho] at hli
      dsimp only at hli
      refine ⟨hli.1, ?_, ?_⟩
      · rw [countErrorEvents_append, hli.2]
      · intro hc
        simp at hc
    | continueLoop =>
      rw [ho] at hli
      dsimp only at hli
      dsimp only
      have hrec := ih (it + 1) (loopIter cfg sm sessID mode toolDefs it).sm
        (acc ++ (loopIter cfg sm sessID mode toolDefs it).events) hli.1
      refine ⟨hrec.1, ?_, hrec.2.2⟩
      rw [hrec.2.1, countErrorEvents_append, hli.2, Nat.add_zero]

theorem loopIter_outcome_noerr (cfg : EngineConfig) (sm : SessionManager)
    (sessID : String) (mode : ChatMode) (toolDefs : List ToolDefinition)
    (iteration : Nat) (h : (mapFind sm.sessions sessID).isSome)
    (hnp : ∀ msgs defs sp, (cfg.provider iteration msgs defs sp).2 = none) :
    (loopIter cfg sm sessID mode toolDefs iteration).outcome = .finished ∨
    (loopIter cfg sm sessID mode toolDefs iteration).outcome = .continueLoop := by
  obtain ⟨s, hs⟩ := Option.isSome_iff_exists.mp h
  have hgm : sm.GetMessages sessID = .ok s.Messages := by
    unfold SessionManager.GetMessages
    rw [hs]
  unfold loopIter
  rw [hgm]
  dsimp only
  rw [hnp s.Messages toolDefs cfg.systemPrompt]
  dsimp only
  split
  · exact Or.inl rfl
  · exact Or.inr rfl

theorem chatLoop_no_provider_error (cfg : EngineConfig) (sessID : String)
    (mode : ChatMode) (toolDefs : List ToolDefinition)
    (hnp : ∀ i msgs defs sp, (cfg.provider i msgs defs sp).2 = none) :
    ∀ (fuel iteration : Nat) (sm : SessionManager) (acc : List OutEvent),
    (mapFind sm.sessions sessID).isSome →
    (chatLoop cfg sessID mode toolDefs fuel iteration sm acc).2.1 = none := by
  intro fuel
  induction fuel with
  | zero => intro it sm acc h; rfl
  | succ fuel ih =>
    intro it sm acc h
    have hli := loopIter_spec cfg sm sessID mode toolDefs it h
    have hout := loopIter_outcome_noerr cfg sm sessID mode toolDefs it h (hnp it)
    simp only [chatLoop]
    cases ho : (loopIter cfg sm sessID mode toolDefs it).outcome with
    | providerError e =>
      rw [ho] at hout
      rcases hout with h1 | h1 <;> cases h1
    | getMessagesError e =>
      rw [ho] at hout
      rcases hout with h1 | h1 <;> cases h1
    | finished => rfl
    | continueLoop =>
      rw [ho] at hli
      dsimp only at hli
      dsimp only
      exact ih (it + 1) _ _ hli.1

theorem executeToolCall_provider_irrel (cfg : EngineConfig) (p q : ProviderFn)
    (sm : SessionManager) (sessID : String) (mode : ChatMode)
    (tc : ContentBlock) :
    executeToolCall { cfg with provider := p } sm sessID mode tc =
      executeToolCall { cfg with provider := q } sm sessID mode tc := rfl

theorem execAll_provider_irrel (cfg : EngineConfig) (p q : ProviderFn)
    (sessID : String) (mode : ChatMode) : ∀ (tcs : List ContentBlock)
    (sm : SessionManager),
    execAll { cfg with provider := p } sm sessID mode tcs =
      execAll { cfg with provider := q } sm sessID mode tcs := by
  intro tcs
  induction tcs with
  | nil => intro sm; rfl
  | cons tc rest ih =>
    intro sm
    simp only [execAll]
    rw [executeToolCall_provider_irrel cfg p q sm sessID mode tc]
    rcases executeToolCall { cfg with provider := q } sm sessID mode tc with
      ⟨sm1, evs1, res⟩
    dsimp only
    rw [ih sm1]

theorem loopIter_provider_agree (cfg : EngineConfig) (p q : ProviderFn)
    (sm : SessionManager) (sessID : String) (mode : ChatMode)
    (toolDefs : List ToolDefinition) (iteration : Nat)
    (hpq : p iteration = q iteration) :
    loopIter { cfg with provider := p } sm sessID mode toolDefs iteration =
      loopIter { cfg with provider := q } sm sessID mode toolDefs iteration := by
  unfold loopIter
  dsimp only
  rw [hpq]
  cases sm.GetMessages sessID with
  | error e => rfl
  | ok messages =>
    dsimp only
    rw [execAll_provider_irrel cfg p q sessID mode]

theorem chatLoop_provider_agree (cfg : EngineConfig) (p q : ProviderFn)
    (sessID : String) (mode : ChatMode) (toolDefs : List ToolDefinition) :
    ∀ (fuel iteration : Nat) (sm : SessionManager) (acc : List OutEvent),
    (∀ j, iteration ≤ j → j < iteration + fuel → p j = q j) →
    chatLoop { cfg with provider := p } sessID mode toolDefs fuel iteration sm acc =
      chatLoop { cfg with provider := q } sessID mode toolDefs fuel iteration sm acc := by
  intro fuel
  induction fuel with
  | zero => intro it sm acc _; rfl
  | succ fuel ih =>
    intro it sm acc hagree
    simp only [chatLoop]
    rw [loopIter_provider_agree cfg p q sm sessID mode toolDefs it
      (hagree it (Nat.le_refl it) (by omega))]
    cases (loopIter { cfg with provider := q } sm sessID mode toolDefs it).outcome with
    | providerError e => rfl
    | getMessagesError e => rfl
    | finished => rfl
    | continueLoop =>
      dsimp only
      exact ih (it + 1) _ _ (fun j hj1 hj2 => hagree j (by omega) (by omega))

theorem getOrCreate_self_isSome (sm : SessionManager) (sid uid : String)
    (mode : ChatMode) (now : Nat) (hwf : sm.Wf) :
    (mapFind (sm.GetOrCreate sid mode uid now).1.sessions
      (sm.GetOrCreate sid mode uid now).2.ID).isSome := by
  unfold SessionManager.GetOrCreate
  cases hf : mapFind sm.sessions sid with
  | none =>
    dsimp only
    rw [mapFind_insert_self]
    rfl
  | some s =>
    dsimp only
    split
    · cases h2 : mapFind sm.sessions (sid ++ "-" ++ uid) with
      | some s2 =>
        dsimp only
        have hid : s2.ID = sid ++ "-" ++ uid := hwf _ (mapFind_mem _ _ _ h2)
        rw [show ({ s2 with LastAccessedAt := now, Mode := mode } : Session).ID
          = s2.ID from rfl, hid, mapFind_insert_self]
        rfl
      | none =>
        dsimp only
        rw [mapFind_insert_self]
        rfl
    · dsimp only
      have hid : s.ID = sid := hwf _ (mapFind_mem _ _ _ hf)
      rw [show ({ s with LastAccessedAt := now, Mode := mode } : Session).ID
        = s.ID from rfl, hid, mapFind_insert_self]
      rfl

theorem isErrorFrame_data (e : OutEvent) :
    (SSEFrame.dataFrame e).isErrorFrame = (e.eventType == "error") := rfl

theorem countErrorFrames_append (a b : List SSEFrame) :
    countErrorFrames (a ++ b) = countErrorFrames a + countErrorFrames b := by
  simp [countErrorFrames, List.filter_append]

theorem countErrorFrames_map_data (l : List OutEvent) :
    countErrorFrames (l.map SSEFrame.dataFrame) = countErrorEvents l := by
  induction l with
  | nil => rfl
  | cons a l ih =>
    simp only [List.map_cons, countErrorFrames, countErrorEvents, List.filter]
    simp only [countErrorFrames, countErrorEvents] at ih
    rw [isErrorFrame_data]
    cases hb : (a.eventType == "error") with
    | false => exact ih
    | true => simp only [List.length_cons, ih]

/-! ### Drain lemmas for C8 -/

theorem drainStep_tool_use_start (c : JsonCodec) (r : ToolRegistry)
    (st : DrainState) (id name : String) :
    drainStep c r st (toolUseStartEvent id name) =
      { st with
        currentToolCall := some { type := "tool_use", id := id, name := name },
        toolCallJSON := "",
        events := st.events ++
          [.toolCall id name (isToolReadOnly r name) none] } := rfl

theorem drainStep_input_delta (c : JsonCodec) (r : ToolRegistry)
    (st : DrainState) (f : String) :
    drainStep c r st (inputJsonDeltaEvent f) =
      if f != "" then { st with toolCallJSON := st.toolCallJSON ++ f }
      else st := rfl

theorem drainStep_stop_some (c : JsonCodec) (r : ToolRegistry)
    (st : DrainState) (ctc : ContentBlock) (h : st.currentToolCall = some ctc) :
    drainStep c r st blockStopEvent =
      { st with
        toolCalls := st.toolCalls ++
          [{ ctc with input := some (parsedInput c st.toolCallJSON) }],
        currentToolCall := none,
        events := st.events ++
          [.toolCall ctc.id ctc.name (isToolReadOnly r ctc.name)
            (some (c.marshal (parsedInput c st.toolCallJSON)))] } := by
  cases st with
  | mk tx cur tcs json sr evs =>
    have h2 : cur = some ctc := h
    subst h2
    rfl

theorem drain_input_deltas (c : JsonCodec) (r : ToolRegistry)
    (fs : List String) : ∀ st : DrainState,
    drain c r st (fs.map inputJsonDeltaEvent) =
      { st with toolCallJSON := fs.foldl (fun acc f => acc ++ f) st.toolCallJSON } := by
  induction fs with
  | nil =>
    intro st
    cases st
    rfl
  | cons f fs ih =>
    intro st
    rw [List.map_cons, drain_cons, drainStep_input_delta, ih]
    by_cases hf : f = ""
    · subst hf
      simp only [bne_self_eq_false, if_neg]
      cases st with
      | mk tx cur tcs json sr evs =>
        simp [List.foldl_cons, String.append_empty]
    · rw [if_pos (bne_iff_ne.mpr hf)]
      rfl

/-! ### C8 -/

/-- C8 counterexample: the engine does not accumulate fragments per
tool_use block by content-block index.  On an interleaved stream where a
second tool_use block starts before the first stops, the first block is
silently discarded: two blocks start, but only one tool call is committed
and only one arguments-bearing tool_call event is emitted. -/
theorem c8_counterexample :
    countToolUseStarts interleavedEvents = 2 ∧
    (drain exCodec exReg initDrainState interleavedEvents).toolCalls.map
      (fun b => b.id) = ["B"] ∧
    countArgumentsToolCallEvents
      (drain exCodec exReg initDrainState interleavedEvents).events = 1 := by
  refine ⟨rfl, rfl, rfl⟩

/-- C8 amended: the engine keeps a single in-flight tool-call buffer (no
content-block-index tracking): for a tool_use block whose argument deltas
all arrive between its start and its stop, the fragments are concatenated
verbatim, the accumulated string is parsed once at content_block_stop
(empty or unparseable degrading to the empty object), the block is
committed with that input, and the second tool_call event carries the
marshalled arguments. -/
theorem c8_amended_single_buffer (c : JsonCodec) (r : ToolRegistry)
    (st : DrainState) (id name : String) (fs : List String) :
    (drain c r st (blockEvents id name fs) =
      { st with
        currentToolCall := none,
        toolCalls := st.toolCalls ++
          [⟨"tool_use", "", id, name,
            some (parsedInput c (fs.foldl (fun acc f => acc ++ f) "")), "", "", false⟩],
        toolCallJSON := fs.foldl (fun acc f => acc ++ f) "",
        events := st.events ++
          [.toolCall id name (isToolReadOnly r name) none,
           .toolCall id name (isToolReadOnly r name)
             (some (c.marshal (parsedInput c (fs.foldl (fun acc f => acc ++ f) ""))))] }) ∧
    parsedInput c "" = JsonValue.emptyObj ∧
    (c.unmarshal (fs.foldl (fun acc f => acc ++ f) "") = none →
      parsedInput c (fs.foldl (fun acc f => acc ++ f) "") = JsonValue.emptyObj) := by
  refine ⟨?_, rfl, ?_⟩
  · rw [blockEvents, drain_cons, drainStep_tool_use_start, drain_append,
      drain_input_deltas, drain_cons]
    rw [drainStep_stop_some c r _
      { type := "tool_use", id := id, name := name } rfl]
    rw [drain_nil]
    cases st with
    | mk tx cur tcs json sr evs =>
      simp [List.append_assoc]
  · intro h
    unfold parsedInput
    rw [h]
    split <;> rfl

/-- Witness for C8 at a concrete two-fragment block. -/
theorem c8_witness :
    (drain exCodec exReg initDrainState
        (blockEvents "call-9" "list_runs" ["\x7b\"a\":", "1\x7d"])).toolCalls.map
      (fun b => b.id) = ["call-9"] ∧
    parsedInput exCodec ("\x7b\"a\":" ++ "1\x7d") = JsonValue.emptyObj := by
  have h := c8_amended_single_buffer exCodec exReg initDrainState
    "call-9" "list_runs" ["\x7b\"a\":", "1\x7d"]
  constructor
  · rw [h.1]
    rfl
  · exact h.2.2 rfl

/-! ### StreamChat-level lemmas -/

theorem countErrorEvents_cons_non_error (e : OutEvent) (l : List OutEvent)
    (h : (e.eventType == "error") = false) :
    countErrorEvents (e :: l) = countErrorEvents l := by
  simp [countErrorEvents, List.filter, h]

theorem getLast?_cons_some {α : Type} (e : α) (l : List α) (x : α)
    (h : l.getLast? = some x) : (e :: l).getLast? = some x := by
  cases l with
  | nil => simp at h
  | cons b bs =>
    rw [List.getLast?_cons_cons]
    exact h

theorem streamChatWithMode_spec (cfg : EngineConfig) (sm : SessionManager)
    (req : ChatRequest) (mode : ChatMode) (hwf : sm.Wf) :
    countErrorEvents (streamChatWithMode cfg sm req mode).1 =
      (match (streamChatWithMode cfg sm req mode).2.1 with
       | some _ => 1
       | none => 0) ∧
    ((streamChatWithMode cfg sm req mode).2.1.isSome →
      (streamChatWithMode cfg sm req mode).1.getLast? = some providerErrorEvent) := by
  have h1 : (mapFind (sm.GetOrCreate req.sessionID mode req.userID cfg.now).1.sessions
      (sm.GetOrCreate req.sessionID mode req.userID cfg.now).2.ID).isSome :=
    getOrCreate_self_isSome sm req.sessionID req.userID mode cfg.now hwf
  have h2 := appendOr_isSome
    (sm.GetOrCreate req.sessionID mode req.userID cfg.now).1
    (sm.GetOrCreate req.sessionID mode req.userID cfg.now).2.ID
    ⟨"user", .text req.message⟩ cfg.now
    (sm.GetOrCreate req.sessionID mode req.userID cfg.now).2.ID h1
  have h3 := chatLoop_spec cfg
    (sm.GetOrCreate req.sessionID mode req.userID cfg.now).2.ID mode
    (cfg.registry.ListForMode mode) maxAgenticLoopIterations 0
    (appendOr (sm.GetOrCreate req.sessionID mode req.userID cfg.now).1
      (sm.GetOrCreate req.sessionID mode req.userID cfg.now).2.ID
      ⟨"user", .text req.message⟩ cfg.now) [] h2
  unfold streamChatWithMode
  dsimp only
  have hev0 : ∀ (a b : String) (c : List String) (l : List OutEvent),
      countErrorEvents (OutEvent.sessionMetadata a b c :: l) = countErrorEvents l :=
    fun a b c l => countErrorEvents_cons_non_error _ _ rfl
  constructor
  · rw [hev0, h3.2.1]
    simp [countErrorEvents]
  · intro hsome
    exact getLast?_cons_some _ _ _ (h3.2.2 hsome)

theorem streamChatWithMode_noerr (cfg : EngineConfig) (sm : SessionManager)
    (req : ChatRequest) (mode : ChatMode) (hwf : sm.Wf)
    (hnp : ∀ i msgs defs sp, (cfg.provider i msgs defs sp).2 = none) :
    (streamChatWithMode cfg sm req mode).2.1 = none := by
  have h1 : (mapFind (sm.GetOrCreate req.sessionID mode req.userID cfg.now).1.sessions
      (sm.GetOrCreate req.sessionID mode req.userID cfg.now).2.ID).isSome :=
    getOrCreate_self_isSome sm req.sessionID req.userID mode cfg.now hwf
  have h2 := appendOr_isSome
    (sm.GetOrCreate req.sessionID mode req.userID cfg.now).1
    (sm.GetOrCreate req.sessionID mode req.userID cfg.now).2.ID
    ⟨"user", .text req.message⟩ cfg.now
    (sm.GetOrCreate req.sessionID mode req.userID cfg.now).2.ID h1
  unfold streamChatWithMode
  dsimp only
  exact chatLoop_no_provider_error cfg
    (sm.GetOrCreate req.sessionID mode req.userID cfg.now).2.ID mode
    (cfg.registry.ListForMode mode) hnp maxAgenticLoopIterations 0
    (appendOr (sm.GetOrCreate req.sessionID mode req.userID cfg.now).1
      (sm.GetOrCreate req.sessionID mode req.userID cfg.now).2.ID
      ⟨"user", .text req.message⟩ cfg.now) [] h2

/-! ### C3 -/

/-- C3 counterexample: with a provider that fails on the first call, the
client-visible SSE stream carries two error-typed frames before the
terminating frame — the sanitized provider_error from the engine and a
second internal_error appended by the handler when StreamChat returns a
non-nil error — not exactly one. -/
theorem c3_counterexample :
    (StreamChat errCfg NewSessionManager errReq).2.1 =
      some "upstream API is unavailable" ∧
    countErrorFrames (handlerFrames (StreamChat errCfg NewSessionManager errReq)) = 2 := by
  refine ⟨rfl, rfl⟩

/-- C3 amended: whenever StreamChat returns a non-nil error — which, for a
live session, happens exactly when the provider reported one — the engine
has emitted exactly one error event, the sanitized provider_error with
retryable=true, as its final event; the client-visible SSE stream then
carries that event plus one handler-emitted internal_error event before
the terminating [DONE] frame. -/
theorem c3_provider_error_stream (cfg : EngineConfig) (sm : SessionManager)
    (req : ChatRequest) (hwf : sm.Wf)
    (herr : (StreamChat cfg sm req).2.1.isSome) :
    countErrorEvents (StreamChat cfg sm req).1 = 1 ∧
    (StreamChat cfg sm req).1.getLast? = some providerErrorEvent ∧
    countErrorFrames (handlerFrames (StreamChat cfg sm req)) = 2 ∧
    (handlerFrames (StreamChat cfg sm req)).getLast? = some SSEFrame.done := by
  have hs := streamChatWithMode_spec cfg sm req (normalizeMode req.mode) hwf
  obtain ⟨e, he⟩ := Option.isSome_iff_exists.mp herr
  have hcount : countErrorEvents (StreamChat cfg sm req).1 = 1 := by
    rw [show (StreamChat cfg sm req).1 =
      (streamChatWithMode cfg sm req (normalizeMode req.mode)).1 from rfl, hs.1]
    rw [show (streamChatWithMode cfg sm req (normalizeMode req.mode)).2.1 =
      (StreamChat cfg sm req).2.1 from rfl, he]
  refine ⟨hcount, hs.2 herr, ?_, ?_⟩
  · unfold handlerFrames
    rw [he]
    simp only [countErrorFrames_append, countErrorFrames_map_data, hcount]
    rfl
  · unfold handlerFrames
    simp [List.getLast?_append]

/-- Witness for C3 at the concrete failing provider. -/
theorem c3_witness :
    countErrorEvents (StreamChat errCfg NewSessionManager errReq).1 = 1 ∧
    (StreamChat errCfg NewSessionManager errReq).1.getLast? =
      some providerErrorEvent :=
  ⟨(c3_provider_error_stream errCfg NewSessionManager errReq (by decide) rfl).1,
   (c3_provider_error_stream errCfg NewSessionManager errReq (by decide) rfl).2.1⟩

/-! ### C7 -/

/-- C7: the agentic loop runs at most maxAgenticLoopIterations = 20
iterations — the result of StreamChat depends only on the first 20 provider
calls — and when the provider never errors the loop (including a full run
to the cap) exits quietly: StreamChat returns nil and no error event is
emitted for the cap. -/
theorem c7_iteration_cap (cfg : EngineConfig) (sm : SessionManager)
    (req : ChatRequest) (hwf : sm.Wf) :
    maxAgenticLoopIterations = 20 ∧
    (∀ p q : ProviderFn,
      (∀ j, j < maxAgenticLoopIterations → p j = q j) →
      StreamChat { cfg with provider := p } sm req =
        StreamChat { cfg with provider := q } sm req) ∧
    ((∀ i msgs defs sp, (cfg.provider i msgs defs sp).2 = none) →
      (StreamChat cfg sm req).2.1 = none ∧
      countErrorEvents (StreamChat cfg sm req).1 = 0) := by
  refine ⟨rfl, ?_, ?_⟩
  · intro p q hagree
    unfold StreamChat streamChatWithMode
    dsimp only
    rw [chatLoop_provider_agree cfg p q _ _ _ maxAgenticLoopIterations 0 _ []
      (fun j hj1 hj2 => hagree j (by omega))]
  · intro hnp
    have hnone : (StreamChat cfg sm req).2.1 = none :=
      streamChatWithMode_noerr cfg sm req (normalizeMode req.mode) hwf hnp
    refine ⟨hnone, ?_⟩
    have hs := streamChatWithMode_spec cfg sm req (normalizeMode req.mode) hwf
    rw [show (StreamChat cfg sm req).1 =
      (streamChatWithMode cfg sm req (normalizeMode req.mode)).1 from rfl, hs.1]
    rw [show (streamChatWithMode cfg sm req (normalizeMode req.mode)).2.1 =
      (StreamChat cfg sm req).2.1 from rfl, hnone]

/-- Witness for C7 at the concrete always-tool-use provider, which runs
into the cap. -/
theorem c7_witness :
    (StreamChat capCfg NewSessionManager capReq).2.1 = none ∧
    countErrorEvents (StreamChat capCfg NewSessionManager capReq).1 = 0 :=
  (c7_iteration_cap capCfg NewSessionManager capReq (by decide)).2.2
    (fun _ _ _ _ => rfl)

/-! ### C10 -/

/-- C10: a GetOrCreate that returns an already-stored session without an
ownership conflict overwrites the Mode of the stored session with the
supplied mode and refreshes its last-accessed instant. -/
theorem c10_mode_not_sticky (sm : SessionManager) (S : Session)
    (sid uid : String) (mode : ChatMode) (now : Nat)
    (hS : mapFind sm.sessions sid = some S)
    (hnc : (S.UserID != "" && uid != "" && S.UserID != uid) = false) :
    (sm.GetOrCreate sid mode uid now).2 =
      { S with Mode := mode, LastAccessedAt := now } ∧
    mapFind (sm.GetOrCreate sid mode uid now).1.sessions sid =
      some { S with Mode := mode, LastAccessedAt := now } := by
  unfold SessionManager.GetOrCreate
  rw [hS]
  dsimp only
  rw [hnc, if_neg (by simp)]
  exact ⟨rfl, mapFind_insert_self _ _ _⟩

/-- Witness for C10: a repeated request by alice in Agent mode flips the
stored Ask-mode session to Agent mode. -/
theorem c10_witness :
    (smAlice.GetOrCreate "sess-1" ChatModeAsk "alice" 7).2 =
      { sessAlice with Mode := ChatModeAsk, LastAccessedAt := 7 } :=
  (c10_mode_not_sticky smAlice sessAlice "sess-1" "alice" ChatModeAsk 7 rfl
    (by decide)).1

/-! ### C9 -/

theorem appendOr_messages (sm : SessionManager) (sid : String) (S : Session)
    (msg : Message) (now : Nat) (hS : mapFind sm.sessions sid = some S)
    (hlen : S.Messages.length + 1 ≤ MaxMessagesPerSession) :
    sessionMessages (appendOr sm sid msg now) sid = some (S.Messages ++ [msg]) := by
  have hle : ¬ ((S.Messages ++ [msg]).length > MaxMessagesPerSession) := by
    rw [List.length_append]
    simp only [List.length_cons, List.length_nil]
    omega
  unfold appendOr SessionManager.AddMessage
  rw [hS]
  dsimp only
  rw [if_neg hle]
  unfold sessionMessages
  dsimp only
  rw [mapFind_insert_self]
  rfl

/-- C9: in a loop iteration whose drained provider turn stopped with
stop_reason tool_use and collected tool calls, the engine appends the
assistant turn as one message — text block (if any) followed by the
tool_use blocks in arrival order — and then exactly one user-role message
holding one tool_result block per tool call, in the same order, each
tool_result matching the id of its tool call. -/
theorem c9_tool_use_turn (cfg : EngineConfig) (sm : SessionManager)
    (sessID : String) (S : Session) (mode : ChatMode)
    (toolDefs : List ToolDefinition) (iteration : Nat)
    (hS : mapFind sm.sessions sessID = some S)
    (hlen : S.Messages.length + 2 ≤ MaxMessagesPerSession)
    (hstop : (drain cfg.codec cfg.registry initDrainState
      (cfg.provider iteration S.Messages toolDefs cfg.systemPrompt).1).stopReason
        = "tool_use")
    (hcalls : (drain cfg.codec cfg.registry initDrainState
      (cfg.provider iteration S.Messages toolDefs cfg.systemPrompt).1).toolCalls.isEmpty
        = false)
    (herr : (cfg.provider iteration S.Messages toolDefs cfg.systemPrompt).2 = none) :
    ∃ results : List ContentBlock,
      sessionMessages (loopIter cfg sm sessID mode toolDefs iteration).sm sessID =
        some (S.Messages ++
          [⟨"assistant", .blocks (assistantBlocks (drain cfg.codec cfg.registry
              initDrainState (cfg.provider iteration S.Messages toolDefs
                cfg.systemPrompt).1))⟩,
           ⟨"user", .blocks results⟩]) ∧
      List.Forall₂ (fun (b tc : ContentBlock) =>
          b.type = "tool_result" ∧ b.toolUseID = tc.id)
        results
        (drain cfg.codec cfg.registry initDrainState
          (cfg.provider iteration S.Messages toolDefs cfg.systemPrompt).1).toolCalls := by
  have hgm : sm.GetMessages sessID = .ok S.Messages := by
    unfold SessionManager.GetMessages
    rw [hS]
  unfold loopIter
  rw [hgm]
  dsimp only
  rw [herr]
  dsimp only
  set stx := drain cfg.codec cfg.registry initDrainState
    (cfg.provider iteration S.Messages toolDefs cfg.systemPrompt).1 with hstx
  have hTCne : stx.toolCalls ≠ [] := by
    intro hc
    rw [hc] at hcalls
    simp at hcalls
  have hblen : (assistantBlocks stx).length > 0 := by
    unfold assistantBlocks
    rw [List.length_append]
    cases hTC : stx.toolCalls with
    | nil => exact absurd hTC hTCne
    | cons a l => simp [hTC]
  rw [if_pos hblen]
  have hA := appendOr_messages sm sessID S
    ⟨"assistant", .blocks (assistantBlocks stx)⟩ cfg.now hS (by omega)
  have hcond : (stx.stopReason != "tool_use" || stx.toolCalls.isEmpty) = false := by
    rw [hstop, hcalls]
    rfl
  rw [hcond, if_neg (by simp)]
  dsimp only
  have hea := execAll_spec cfg sessID mode stx.toolCalls
    (appendOr sm sessID ⟨"assistant", .blocks (assistantBlocks stx)⟩ cfg.now)
  refine ⟨(execAll cfg (appendOr sm sessID
      ⟨"assistant", .blocks (assistantBlocks stx)⟩ cfg.now) sessID mode
      stx.toolCalls).2.2, ?_, hea.2.2⟩
  have hmsgs1 : sessionMessages (execAll cfg (appendOr sm sessID
      ⟨"assistant", .blocks (assistantBlocks stx)⟩ cfg.now) sessID mode
      stx.toolCalls).1 sessID =
      some (S.Messages ++ [⟨"assistant", .blocks (assistantBlocks stx)⟩]) := by
    rw [hea.1 sessID]
    exact hA
  have hA2 := hmsgs1
  unfold sessionMessages at hA2
  obtain ⟨S2, hS2, hS2m⟩ := Option.map_eq_some'.mp hA2
  have hfin := appendOr_messages _ sessID S2
    ⟨"user", .blocks (execAll cfg (appendOr sm sessID
      ⟨"assistant", .blocks (assistantBlocks stx)⟩ cfg.now) sessID mode
      stx.toolCalls).2.2⟩ cfg.now hS2
    (by rw [hS2m, List.length_append]; simp only [List.length_cons, List.length_nil]; omega)
  rw [hfin, hS2m, List.append_assoc]
  rfl

/-- Witness for C9 at the concrete tool-use provider turn. -/
theorem c9_witness :
    (sessionMessages (loopIter capCfg sm9 "s9" ChatModeAsk [] 0).sm "s9").isSome
      = true := by
  obtain ⟨results, hmsg, -⟩ := c9_tool_use_turn capCfg sm9 "s9" sess9 ChatModeAsk
    [] 0 rfl (by decide) rfl rfl rfl
  rw [hmsg]
  rfl

end Pipelines
